import Mathlib

/-!
Verification development for the transaction-layer bindings of the
`js-chain-libs` repository (`src/src/lib.rs`).

The file shallowly embeds the data model and the operations exposed by
`lib.rs`: keys and BIP32-style derivation, the tagged address format,
values and checked arithmetic, inputs / outputs / transactions,
certificates and their canonical byte codecs, the linear fee algorithm,
and fragments with their content-addressed identifiers.

`lib.rs` is a thin binding layer over the `chain_impl_mockchain`,
`chain_addr` and `chain_crypto` crates, whose sources are not part of
this repository; where an operation's body lives in those crates (or in
the repository's missing `transaction.rs` module) the corresponding Lean
definition is modelled from the specification and marked with a
`Modelled from the spec:` doc comment.  Machine integers are embedded as
`Fin (2 ^ w)`; byte streams are `List Nat` whose encoders only emit
values below 256; fallible operations return `Option` or `Except`.
-/

/-! ## Byte-stream combinators -/

/-- Big-endian encoding of `n` on `k` bytes (most significant byte first). -/
def encBE : Nat → Nat → List Nat
  | 0, _ => []
  | k + 1, n => encBE k (n / 256) ++ [n % 256]

/-- Auxiliary big-endian decoder: consume `k` symbols, folding them into `acc`. -/
def decBEAux : Nat → Nat → List Nat → Option (Nat × List Nat)
  | 0, acc, s => some (acc, s)
  | _ + 1, _, [] => none
  | k + 1, acc, b :: s => decBEAux k (acc * 256 + b) s

/-- Big-endian decoding of `k` bytes from the front of a stream. -/
def decBE (k : Nat) (s : List Nat) : Option (Nat × List Nat) :=
  decBEAux k 0 s




/-- Decode `k` bytes from the stream into a value bounded by `bound`. -/
def decBound (k bound : Nat) (s : List Nat) : Option (Fin bound × List Nat) :=
  match decBE k s with
  | none => none
  | some (n, rest) => if h : n < bound then some (⟨n, h⟩, rest) else none



/-! ## Ledger primitives -/

/-- A 32-byte digest or key, embedded as a number below `2 ^ 256`. -/
abbrev Bytes32 := Fin (2 ^ 256)

/-- An Ed25519 public key (a single point, 32 bytes). -/
abbrev PublicKey := Bytes32

/-- A stake pool identifier (a 32-byte digest). -/
abbrev PoolId := Bytes32

/-- `Value` (src/src/lib.rs:982): an unsigned 64-bit amount. -/
abbrev Value := Fin (2 ^ 64)

/-- Build a `Value` from a numeral (reduced modulo `2 ^ 64`). -/
def v64 (n : Nat) : Value := ⟨n % 2 ^ 64, Nat.mod_lt _ (by norm_num)⟩

/-- Build a `Bytes32` from a numeral (reduced modulo `2 ^ 256`). -/
def b32 (n : Nat) : Bytes32 := ⟨n % 2 ^ 256, Nat.mod_lt _ (by norm_num)⟩

/-- Build a byte from a numeral (reduced modulo `256`). -/
def f8 (n : Nat) : Fin 256 := ⟨n % 256, Nat.mod_lt _ (by norm_num)⟩

/-- The largest representable `Value` (`u64::MAX`). -/
def Value.max64 : Value := ⟨2 ^ 64 - 1, by norm_num⟩

/-- Modelled from the spec (§3): `Value::checked_add` (src/src/lib.rs:1010)
delegates to `value::Value::add` in the external `chain` crate, which "fails
on overflow rather than wrapping". -/
def Value.checked_add (a b : Value) : Option Value :=
  if h : a.val + b.val < 2 ^ 64 then some ⟨a.val + b.val, h⟩ else none

/-- Modelled from the spec (§3): `Value::checked_sub` (src/src/lib.rs:1017)
delegates to `value::Value::sub`, which "fails on underflow rather than
wrapping". -/
def Value.checked_sub (a b : Value) : Option Value :=
  if _ : b.val ≤ a.val then
    some ⟨a.val - b.val, lt_of_le_of_lt (Nat.sub_le _ _) a.isLt⟩
  else none

/-! ## Address model (src/src/lib.rs:371-669) -/

/-- Network discrimination (`chain_addr::Discrimination`). -/
inductive Discrimination
  | Production
  | Test
deriving DecidableEq

/-- Address kind (`chain_addr::Kind`): Single / Group / Account / Multisig. -/
inductive Kind
  | Single (spending : PublicKey)
  | Group (spending : PublicKey) (account : PublicKey)
  | Account (account : PublicKey)
  | Multisig (merkleRoot : Bytes32)
deriving DecidableEq

/-- An address: discrimination plus kind (`chain_addr::Address`, wrapped by
`Address` in src/src/lib.rs:451). -/
structure Address where
  discrimination : Discrimination
  kind : Kind
deriving DecidableEq

/-- Modelled from the spec (§4.2): kind part of the address tag byte
(constants as in the external `chain_addr` crate). -/
def Kind.tag : Kind → Nat
  | .Single _ => 3
  | .Group _ _ => 4
  | .Account _ => 5
  | .Multisig _ => 6

/-- Modelled from the spec (§4.2): discrimination bit of the tag byte. -/
def Discrimination.bit : Discrimination → Nat
  | .Production => 0
  | .Test => 128

/-- Modelled from the spec (§4.2): kind-specific fixed-width payload
(Single: 32 bytes; Group: 64; Account: 32; Multisig: 32). -/
def Kind.payload : Kind → List Nat
  | .Single k => encBE 32 k.val
  | .Group k a => encBE 32 k.val ++ encBE 32 a.val
  | .Account a => encBE 32 a.val
  | .Multisig r => encBE 32 r.val

/-- Modelled from the spec (§4.2, §6): `Address::as_bytes`
(src/src/lib.rs:463) — one tag byte followed by the kind payload. -/
def Address.as_bytes (a : Address) : List Nat :=
  (a.kind.tag + a.discrimination.bit) :: a.kind.payload

/-- Modelled from the spec (§4.2): address byte decoding
(`chain_addr::Address::deserialize`, reached from src/src/lib.rs:455);
fails on an unknown tag or truncated input. -/
def Address.from_bytes (s : List Nat) : Option Address :=
  match s with
  | [] => none
  | t :: rest =>
    let d : Discrimination := if 128 ≤ t then .Test else .Production
    let kt := t % 128
    if kt = 3 then
      match decBound 32 (2 ^ 256) rest with
      | some (k, []) => some ⟨d, .Single k⟩
      | _ => none
    else if kt = 4 then
      match decBound 32 (2 ^ 256) rest with
      | some (k, r2) =>
        match decBound 32 (2 ^ 256) r2 with
        | some (a, []) => some ⟨d, .Group k a⟩
        | _ => none
      | none => none
    else if kt = 5 then
      match decBound 32 (2 ^ 256) rest with
      | some (a, []) => some ⟨d, .Account a⟩
      | _ => none
    else if kt = 6 then
      match decBound 32 (2 ^ 256) rest with
      | some (r, []) => some ⟨d, .Multisig r⟩
      | _ => none
    else none

/-- Modelled from the spec (§1): the bech32 codec is an opaque external
collaborator; a bech32 string is embedded by its two components, the
human-readable prefix and the data bytes it carries. -/
structure Bech32String where
  hrp : String
  data : List Nat
deriving DecidableEq

/-- `Address::to_string(prefix)` (src/src/lib.rs:489): bech32-encode the
serialized address bytes under the caller-supplied prefix. -/
def Address.to_string (a : Address) (p : String) : Bech32String :=
  ⟨p, a.as_bytes⟩

/-- `Address::from_string` (src/src/lib.rs:473): any-prefix bech32 decoding —
the prefix is not inspected and the data bytes are parsed as an address. -/
def Address.from_string (s : Bech32String) : Option Address :=
  Address.from_bytes s.data


/-! ## Key derivation (src/src/lib.rs:26-154) -/

/-- `Bip32PrivateKey` (src/src/lib.rs:27): an extended BIP32 private key
(96 bytes: extended secret plus chain code), embedded opaquely. -/
structure Bip32PrivateKey where
  bytes : Fin (2 ^ 768)
deriving DecidableEq

/-- `Bip32PublicKey` (src/src/lib.rs:97): an extended BIP32 public key
(64 bytes: point plus chain code), embedded opaquely. -/
structure Bip32PublicKey where
  bytes : Fin (2 ^ 512)
deriving DecidableEq

/-- Modelled from the spec (§4.1): `derive_private` "never fails; uses
HMAC-based BIP32-style expansion combining the parent's key material and
chain code with `index`"; the cryptographic expansion itself is an opaque
collaborator, stood in for by a concrete mix (`chain_crypto::derive`). -/
def derive_sk_ed25519 (sk : Bip32PrivateKey) (index : Fin (2 ^ 32)) :
    Bip32PrivateKey :=
  ⟨⟨(sk.bytes.val * 2 ^ 32 + index.val + 1) % 2 ^ 768, Nat.mod_lt _ (by norm_num)⟩⟩

/-- The derivation error of the external `chain_crypto::derive` module, named
as in the spec (§4.1, §7). -/
inductive DerivationError
  | HardDerivationOnPublicKey
deriving DecidableEq

/-- Modelled from the spec (§4.1): `derive_public(parent, i)` "fails with
`HardDerivationOnPublicKey` when `index >= 0x80000000`"; the soft-derivation
point arithmetic is an opaque collaborator, stood in for by a concrete mix
(`chain_crypto::derive::derive_pk_ed25519`). -/
def derive_pk_ed25519 (pk : Bip32PublicKey) (index : Fin (2 ^ 32)) :
    Except DerivationError Bip32PublicKey :=
  if index.val < 0x80000000 then
    .ok ⟨⟨(pk.bytes.val * 2 ^ 32 + index.val + 1) % 2 ^ 512,
          Nat.mod_lt _ (by norm_num)⟩⟩
  else .error .HardDerivationOnPublicKey

/-- `Bip32PrivateKey::derive` (src/src/lib.rs:50): total, never fails. -/
def Bip32PrivateKey.derive (sk : Bip32PrivateKey) (index : Fin (2 ^ 32)) :
    Bip32PrivateKey :=
  derive_sk_ed25519 sk index

/-- `Bip32PublicKey::derive` (src/src/lib.rs:125): derive and map the
derivation error into a binding-level error string. -/
def Bip32PublicKey.derive (pk : Bip32PublicKey) (index : Fin (2 ^ 32)) :
    Except String Bip32PublicKey :=
  match derive_pk_ed25519 pk index with
  | .ok k => .ok k
  | .error _ => .error "ExpectedSoftDerivation"

/-- Whether a binding-level `Result` value is a success. -/
def resultOk {a : Type} (r : Except String a) : Bool :=
  match r with
  | .ok _ => true
  | .error _ => false

/-! ## Single / account address views (src/src/lib.rs:371-443, 496-602) -/

/-- `AddressDiscrimination` (src/src/lib.rs:620): the binding-level
discrimination enum. -/
inductive AddressDiscrimination
  | Production
  | Test
deriving DecidableEq

/-- The `Into<chain_addr::Discrimination>` conversion (src/src/lib.rs:625). -/
def AddressDiscrimination.into : AddressDiscrimination → Discrimination
  | .Production => .Production
  | .Test => .Test

/-- `SingleAddress` (src/src/lib.rs:373): discrimination and spending key. -/
structure SingleAddress where
  discrimination : Discrimination
  spendingKey : PublicKey
deriving DecidableEq

/-- `SingleAddress::get_spending_key` (src/src/lib.rs:380). -/
def SingleAddress.get_spending_key (s : SingleAddress) : PublicKey :=
  s.spendingKey

/-- `AccountAddress` (src/src/lib.rs:416): discrimination and account key. -/
structure AccountAddress where
  discrimination : Discrimination
  accountKey : PublicKey
deriving DecidableEq

/-- `AccountAddress::get_account_key` (src/src/lib.rs:423). -/
def AccountAddress.get_account_key (s : AccountAddress) : PublicKey :=
  s.accountKey

/-- `Address::single_from_public_key` (src/src/lib.rs:503): a Single-kind
address from a public key under the given discrimination. -/
def Address.single_from_public_key (key : PublicKey)
    (discrimination : AddressDiscrimination) : Address :=
  ⟨discrimination.into, .Single key⟩

/-- `Address::account_from_public_key` (src/src/lib.rs:528). -/
def Address.account_from_public_key (key : PublicKey)
    (discrimination : AddressDiscrimination) : Address :=
  ⟨discrimination.into, .Account key⟩

/-- `Address::to_single_address` (src/src/lib.rs:565): the Single view of an
address, when its kind is Single. -/
def Address.to_single_address (a : Address) : Option SingleAddress :=
  match a.kind with
  | .Single k => some ⟨a.discrimination, k⟩
  | _ => none

/-- `Address::to_account_address` (src/src/lib.rs:585): the Account view of
an address, when its kind is Account. -/
def Address.to_account_address (a : Address) : Option AccountAddress :=
  match a.kind with
  | .Account k => some ⟨a.discrimination, k⟩
  | _ => none

/-! ## Inputs and outputs (src/src/lib.rs:756-973) -/

/-- `UtxoPointer` (src/src/lib.rs:848): origin fragment id, output index
within that fragment, and the expected value. -/
structure UtxoPointer where
  transaction_id : Bytes32
  output_index : Fin 256
  value : Value
deriving DecidableEq

/-- `AccountIdentifier` (src/src/lib.rs:931): the unspecified 32-byte account
identifier form. -/
structure AccountIdentifier where
  bytes : Bytes32
deriving DecidableEq

/-- `InputKind` (src/src/lib.rs:767). -/
inductive InputKind
  | Account
  | Utxo
deriving DecidableEq

/-- `Input` (src/src/lib.rs:758), through its `tx::InputEnum` view (spec §3):
tagged union of a UTXO pointer, or an account reference with a value. -/
inductive Input
  | UtxoInput (p : UtxoPointer)
  | AccountInput (a : AccountIdentifier) (v : Value)
deriving DecidableEq

/-- `Input::get_type` (src/src/lib.rs:787). -/
def Input.get_type : Input → InputKind
  | .UtxoInput _ => .Utxo
  | .AccountInput _ _ => .Account

/-- `Input::is_account` (src/src/lib.rs:794). -/
def Input.is_account (i : Input) : Bool :=
  match i.get_type with
  | .Account => true
  | _ => false

/-- `Input::is_utxo` (src/src/lib.rs:801). -/
def Input.is_utxo (i : Input) : Bool :=
  match i.get_type with
  | .Utxo => true
  | _ => false

/-- `Input::value` (src/src/lib.rs:808): the value carried by either
variant; total. -/
def Input.value : Input → Value
  | .UtxoInput p => p.value
  | .AccountInput _ v => v

/-- `Input::get_utxo_pointer` (src/src/lib.rs:813): the inner UTXO pointer,
or a typed failure for an account input. -/
def Input.get_utxo_pointer : Input → Except String UtxoPointer
  | .UtxoInput p => .ok p
  | .AccountInput _ _ => .error "Input is not from utxo"

/-- `Input::get_account_identifier` (src/src/lib.rs:821): the source account,
or a typed failure for a UTXO input. -/
def Input.get_account_identifier : Input → Except String AccountIdentifier
  | .AccountInput a _ => .ok a
  | .UtxoInput _ => .error "Input is not from account"

/-- `Output` (src/src/lib.rs:956): an address and a value. -/
structure Output where
  address : Address
  value : Value
deriving DecidableEq

/-! ## Certificates (src/src/lib.rs:1125-1598) -/

/-- `DelegationRatio` (src/src/lib.rs:1214): a number of parts and the list
of pools with their individual parts (`chain::account::DelegationRatio`). -/
structure DelegationRatio where
  parts : Fin 256
  pools : List (PoolId × Fin 256)
deriving DecidableEq

/-- Modelled from the spec (§4.4): `DelegationRatio::new(parts, pools)`
(src/src/lib.rs:1239, delegating to `chain::account::DelegationRatio::new`)
"fails (returns no value) unless `pools.len() >= 2` and the sum of listed
parts equals `parts`". -/
def DelegationRatio.new (parts : Fin 256) (pools : List (PoolId × Fin 256)) :
    Option DelegationRatio :=
  if 2 ≤ pools.length ∧ (pools.map (fun p => p.2.val)).sum = parts.val then
    some ⟨parts, pools⟩
  else none

/-- `DelegationType` (src/src/lib.rs:1158). -/
inductive DelegationType
  | NonDelegated
  | Full (pool : PoolId)
  | Ratio (r : DelegationRatio)
deriving DecidableEq

/-- `StakeDelegation` (src/src/lib.rs:1144): account identifier and the
chosen delegation. -/
structure StakeDelegation where
  account_id : Bytes32
  delegation : DelegationType
deriving DecidableEq

/-- `OwnerStakeDelegation` (src/src/lib.rs:1285). -/
structure OwnerStakeDelegation where
  delegation : DelegationType
deriving DecidableEq

/-- `PoolRetirement` (src/src/lib.rs:1319): pool id and retirement time
offset (seconds, u64). -/
structure PoolRetirement where
  pool_id : PoolId
  retirement_time : Fin (2 ^ 64)
deriving DecidableEq

/-- `GenesisPraosLeader` (src/src/lib.rs:1103): KES and VRF public keys,
each embedded opaquely as 32 bytes. -/
structure GenesisPraosLeader where
  kes_public_key : Bytes32
  vrf_public_key : Bytes32
deriving DecidableEq

/-- `PoolUpdate` (src/src/lib.rs:1358). -/
structure PoolUpdate where
  pool_id : PoolId
  start_validity : Fin (2 ^ 64)
  previous_keys : Bytes32
  updated_keys : GenesisPraosLeader
deriving DecidableEq

/-- `TaxType` (src/src/lib.rs:1574, wrapping `chain::rewards::TaxType`):
fixed part, ratio, and an optional maximum. -/
structure TaxType where
  fixed : Value
  ratio_numerator : Fin (2 ^ 64)
  ratio_denominator : Fin (2 ^ 64)
  max_limit : Option (Fin (2 ^ 64))
deriving DecidableEq

/-- Modelled from the spec: `chain::rewards::TaxType::zero()` — zero fixed
tax, zero ratio (denominator one) and no maximum. -/
def TaxType.zero : TaxType := ⟨v64 0, v64 0, v64 1, none⟩

/-- `PoolRegistration` (src/src/lib.rs:1135, wrapping
`chain::certificate::PoolRegistration`); permissions are embedded by the
management threshold byte passed to `PoolPermissions::new`. -/
structure PoolRegistration where
  serial : Fin (2 ^ 128)
  owners : List PublicKey
  operators : List PublicKey
  permissions : Fin 256
  start_validity : Fin (2 ^ 64)
  rewards : TaxType
  reward_account : Option Bytes32
  keys : GenesisPraosLeader
deriving DecidableEq

/-- `PoolRegistration::new` (src/src/lib.rs:1506): builds the registration
from the given arguments, hardcoding a zero rewards tax and no reward
account. -/
def PoolRegistration.new (serial : Fin (2 ^ 128))
    (owners operators : List PublicKey) (management_threshold : Fin 256)
    (start_validity : Fin (2 ^ 64)) (leader_keys : GenesisPraosLeader) :
    PoolRegistration :=
  { serial := serial
    owners := owners
    operators := operators
    permissions := management_threshold
    start_validity := start_validity
    rewards := TaxType.zero
    reward_account := none
    keys := leader_keys }

/-- `Certificate` (src/src/lib.rs:1126): tagged union of the five
certificate payload variants. -/
inductive Certificate
  | StakeDelegation (c : StakeDelegation)
  | OwnerStakeDelegation (c : OwnerStakeDelegation)
  | PoolRegistration (c : PoolRegistration)
  | PoolRetirement (c : PoolRetirement)
  | PoolUpdate (c : PoolUpdate)
deriving DecidableEq


/-! ## Canonical byte codecs for certificates (src/src/lib.rs:1272-1571) -/

/-- Fixed-width field encoders over the byte stream. -/
def encB32 (x : Bytes32) : List Nat := encBE 32 x.val

/-- Decode a 32-byte field. -/
def decB32 (s : List Nat) : Option (Bytes32 × List Nat) :=
  decBound 32 (2 ^ 256) s

/-- Encode a u64 field big-endian. -/
def encU64 (x : Fin (2 ^ 64)) : List Nat := encBE 8 x.val

/-- Decode a u64 field. -/
def decU64 (s : List Nat) : Option (Fin (2 ^ 64) × List Nat) :=
  decBound 8 (2 ^ 64) s

/-- Encode a u128 field big-endian. -/
def encU128 (x : Fin (2 ^ 128)) : List Nat := encBE 16 x.val

/-- Decode a u128 field. -/
def decU128 (s : List Nat) : Option (Fin (2 ^ 128) × List Nat) :=
  decBound 16 (2 ^ 128) s

/-- Encode a single byte field. -/
def encU8 (x : Fin 256) : List Nat := encBE 1 x.val

/-- Decode a single byte field. -/
def decU8 (s : List Nat) : Option (Fin 256 × List Nat) :=
  decBound 1 256 s

/-- Canonical encoding of an optional field: a presence byte then the
field when present. -/
def encOpt {a : Type} (enc : a → List Nat) : Option a → List Nat
  | none => [0]
  | some x => 1 :: enc x

/-- Decoder for an optional field. -/
def decOpt {a : Type} (dec : List Nat → Option (a × List Nat))
    (s : List Nat) : Option (Option a × List Nat) :=
  match s with
  | 0 :: rest => some (none, rest)
  | 1 :: rest => (dec rest).map (fun xr => (some xr.1, xr.2))
  | _ => none

/-- Canonical encoding of a counted list: one count byte then the
elements in order. -/
def encListC {a : Type} (enc : a → List Nat) (xs : List a) : List Nat :=
  xs.length % 256 :: xs.flatMap enc

/-- Decode exactly `n` consecutive elements. -/
def decCount {a : Type} (dec : List Nat → Option (a × List Nat)) :
    Nat → List Nat → Option (List a × List Nat)
  | 0, s => some ([], s)
  | n + 1, s =>
    match dec s with
    | none => none
    | some (x, r) =>
      match decCount dec n r with
      | none => none
      | some (xs, r2) => some (x :: xs, r2)

/-- Decoder for a counted list: read the count byte, then that many
elements. -/
def decListC {a : Type} (dec : List Nat → Option (a × List Nat))
    (s : List Nat) : Option (List a × List Nat) :=
  match s with
  | [] => none
  | n :: rest => decCount dec n rest

/-- Modelled from the spec (§4.4): canonical encoding of a delegation type —
a tag byte (0 non-delegated, 1 full, 2 ratio) followed by its fields; a
ratio carries its parts byte and the counted list of (pool, part) entries. -/
def DelegationType.as_bytes : DelegationType → List Nat
  | .NonDelegated => [0]
  | .Full p => 1 :: encB32 p
  | .Ratio r =>
    2 :: (encU8 r.parts ++ encListC (fun e => encB32 e.1 ++ encU8 e.2) r.pools)

/-- Decode one (pool, part) ratio entry. -/
def decPoolPart (s : List Nat) : Option ((PoolId × Fin 256) × List Nat) :=
  match decB32 s with
  | none => none
  | some (p, r) =>
    match decU8 r with
    | none => none
    | some (x, r2) => some ((p, x), r2)

/-- Modelled from the spec (§4.4): delegation type decoder. -/
def DelegationType.from_bytes (s : List Nat) :
    Option (DelegationType × List Nat) :=
  match s with
  | 0 :: rest => some (.NonDelegated, rest)
  | 1 :: rest => (decB32 rest).map (fun pr => (.Full pr.1, pr.2))
  | 2 :: rest =>
    match decU8 rest with
    | none => none
    | some (parts, r1) =>
      match decListC decPoolPart r1 with
      | none => none
      | some (pools, r2) => some (.Ratio ⟨parts, pools⟩, r2)
  | _ => none

/-- Modelled from the spec (§4.4): `StakeDelegation::as_bytes`
(src/src/lib.rs:1272) — canonical serialization: the account identifier,
then the delegation type. -/
def StakeDelegation.as_bytes (c : StakeDelegation) : List Nat :=
  encB32 c.account_id ++ c.delegation.as_bytes

/-- Modelled from the spec (§4.4): `StakeDelegation::from_bytes`
(src/src/lib.rs:1276). -/
def StakeDelegation.from_bytes (s : List Nat) : Option StakeDelegation :=
  match decB32 s with
  | none => none
  | some (acc, r) =>
    match DelegationType.from_bytes r with
    | some (d, _) => some ⟨acc, d⟩
    | none => none

/-- Modelled from the spec (§4.4): `OwnerStakeDelegation::as_bytes`
(src/src/lib.rs:1306). -/
def OwnerStakeDelegation.as_bytes (c : OwnerStakeDelegation) : List Nat :=
  c.delegation.as_bytes

/-- Modelled from the spec (§4.4): `OwnerStakeDelegation::from_bytes`
(src/src/lib.rs:1310). -/
def OwnerStakeDelegation.from_bytes (s : List Nat) :
    Option OwnerStakeDelegation :=
  match DelegationType.from_bytes s with
  | some (d, _) => some ⟨d⟩
  | none => none

/-- Modelled from the spec (§4.4): `PoolRetirement::as_bytes`
(src/src/lib.rs:1345) — pool id then retirement time. -/
def PoolRetirement.as_bytes (c : PoolRetirement) : List Nat :=
  encB32 c.pool_id ++ encU64 c.retirement_time

/-- Modelled from the spec (§4.4): `PoolRetirement::from_bytes`
(src/src/lib.rs:1349). -/
def PoolRetirement.from_bytes (s : List Nat) : Option PoolRetirement :=
  match decB32 s with
  | none => none
  | some (p, r) =>
    match decU64 r with
    | none => none
    | some (t, _) => some ⟨p, t⟩

/-- Canonical encoding of a Genesis-Praos leader key pair. -/
def GenesisPraosLeader.as_bytes (k : GenesisPraosLeader) : List Nat :=
  encB32 k.kes_public_key ++ encB32 k.vrf_public_key

/-- Decoder for a Genesis-Praos leader key pair. -/
def GenesisPraosLeader.from_bytes (s : List Nat) :
    Option (GenesisPraosLeader × List Nat) :=
  match decB32 s with
  | none => none
  | some (kes, r) =>
    match decB32 r with
    | none => none
    | some (vrf, r2) => some (⟨kes, vrf⟩, r2)

/-- Modelled from the spec (§4.4): `PoolUpdate::as_bytes`
(src/src/lib.rs:1399) — pool id, start validity, previous key hash, and the
updated leader keys. -/
def PoolUpdate.as_bytes (c : PoolUpdate) : List Nat :=
  encB32 c.pool_id ++ encU64 c.start_validity ++ encB32 c.previous_keys
    ++ c.updated_keys.as_bytes

/-- Modelled from the spec (§4.4): `PoolUpdate::from_bytes`
(src/src/lib.rs:1403). -/
def PoolUpdate.from_bytes (s : List Nat) : Option PoolUpdate :=
  match decB32 s with
  | none => none
  | some (p, r) =>
    match decU64 r with
    | none => none
    | some (sv, r2) =>
      match decB32 r2 with
      | none => none
      | some (pk, r3) =>
        match GenesisPraosLeader.from_bytes r3 with
        | none => none
        | some (keys, _) => some ⟨p, sv, pk, keys⟩

/-- Canonical encoding of a tax type: fixed part, ratio numerator and
denominator, and the optional maximum. -/
def TaxType.as_bytes (t : TaxType) : List Nat :=
  encU64 t.fixed ++ encU64 t.ratio_numerator ++ encU64 t.ratio_denominator
    ++ encOpt encU64 t.max_limit

/-- Decoder for a tax type. -/
def TaxType.from_bytes (s : List Nat) : Option (TaxType × List Nat) :=
  match decU64 s with
  | none => none
  | some (fx, r) =>
    match decU64 r with
    | none => none
    | some (num, r2) =>
      match decU64 r2 with
      | none => none
      | some (den, r3) =>
        match decOpt decU64 r3 with
        | none => none
        | some (ml, r4) => some (⟨fx, num, den, ml⟩, r4)

/-- Modelled from the spec (§4.4): `PoolRegistration::as_bytes`
(src/src/lib.rs:1561) — serial, owner and operator key lists, permissions,
start validity, rewards tax, optional reward account, and leader keys. -/
def PoolRegistration.as_bytes (c : PoolRegistration) : List Nat :=
  encU128 c.serial ++ encListC encB32 c.owners ++ encListC encB32 c.operators
    ++ encU8 c.permissions ++ encU64 c.start_validity ++ c.rewards.as_bytes
    ++ encOpt encB32 c.reward_account ++ c.keys.as_bytes

/-- Modelled from the spec (§4.4): `PoolRegistration::from_bytes`
(src/src/lib.rs:1565). -/
def PoolRegistration.from_bytes (s : List Nat) : Option PoolRegistration :=
  match decU128 s with
  | none => none
  | some (serial, r) =>
    match decListC decB32 r with
    | none => none
    | some (owners, r2) =>
      match decListC decB32 r2 with
      | none => none
      | some (operators, r3) =>
        match decU8 r3 with
        | none => none
        | some (perm, r4) =>
          match decU64 r4 with
          | none => none
          | some (sv, r5) =>
            match TaxType.from_bytes r5 with
            | none => none
            | some (tax, r6) =>
              match decOpt decB32 r6 with
              | none => none
              | some (ra, r7) =>
                match GenesisPraosLeader.from_bytes r7 with
                | none => none
                | some (keys, _) =>
                  some ⟨serial, owners, operators, perm, sv, tax, ra, keys⟩

/-- `Certificate::as_bytes` (src/src/lib.rs:1493): dispatch to the variant
serializer. -/
def Certificate.as_bytes : Certificate → List Nat
  | .StakeDelegation c => c.as_bytes
  | .OwnerStakeDelegation c => c.as_bytes
  | .PoolRegistration c => c.as_bytes
  | .PoolRetirement c => c.as_bytes
  | .PoolUpdate c => c.as_bytes

/-- Well-formedness for the counted-list encodings: every count fits its
count byte. -/
def DelegationType.wfB : DelegationType → Bool
  | .Ratio r => r.pools.length < 256
  | _ => true

/-- Well-formedness of a pool registration for its counted-list encodings. -/
def PoolRegistration.wfB (c : PoolRegistration) : Bool :=
  decide (c.owners.length < 256) && decide (c.operators.length < 256)

/-! ## Transactions and fees (src/src/lib.rs:1736-1771, spec §3, §4.5) -/

/-- Modelled from the spec (§3): `Transaction<Extra>` (the repository's
`transaction` module is not under src/) — an ordered sequence of inputs, an
ordered sequence of outputs, and an optional certificate-shaped payload
whose variant is fixed at construction. -/
structure Transaction where
  inputs : List Input
  outputs : List Output
  payload : Option Certificate

/-- Number of inputs of a transaction (`tx.nb_inputs()`). -/
def Transaction.nb_inputs (tx : Transaction) : Nat := tx.inputs.length

/-- Number of outputs of a transaction (`tx.nb_outputs()`). -/
def Transaction.nb_outputs (tx : Transaction) : Nat := tx.outputs.length

/-- `fee::LinearFee` coefficients (external `chain` fee crate). -/
structure LinearFee where
  constant : Value
  coefficient : Value
  certificate : Value

/-- `FeeVariant` (src/src/lib.rs:1769): currently only the linear
algorithm. -/
inductive FeeVariant
  | Linear (f : LinearFee)

/-- `Fee` (src/src/lib.rs:1739). -/
structure Fee where
  variant : FeeVariant

/-- `Fee::linear_fee` (src/src/lib.rs:1744). -/
def Fee.linear_fee (constant coefficient certificate : Value) : Fee :=
  ⟨.Linear ⟨constant, coefficient, certificate⟩⟩

/-- Modelled from the spec (§4.5): `Fee::calculate` (src/src/lib.rs:1752) —
`fee = constant + coefficient*(nb_inputs + nb_outputs) + certificate_fee *
(1 if certificate present else 0)`, reading only the counts and the
certificate presence from the transaction. -/
def Fee.calculate (f : Fee) (tx : Transaction) : Nat :=
  match f.variant with
  | .Linear lf =>
    lf.constant.val + lf.coefficient.val * (tx.nb_inputs + tx.nb_outputs)
      + lf.certificate.val * (if tx.payload.isSome then 1 else 0)

/-! ## Fragments (src/src/lib.rs:1923-2177, spec §4.6) -/

/-- Modelled from the spec (§1): Blake2b-256 is an opaque collaborator
`Hash(bytes) -> 32-byte digest`; stood in for by a concrete fold of the
byte stream into a 32-byte number. -/
def hashBytes (s : List Nat) : Bytes32 :=
  ⟨(s.foldl (fun acc b => acc * 257 + b + 1) 1) % 2 ^ 256,
   Nat.mod_lt _ (by norm_num)⟩

/-- `FragmentId::calculate` (src/src/lib.rs:2162): hash the given bytes. -/
def FragmentId.calculate (s : List Nat) : Bytes32 := hashBytes s

/-- Canonical encoding of one input (spec §3): a tag byte, then the
variant fields. -/
def Input.as_bytes : Input → List Nat
  | .UtxoInput p =>
    0 :: (encB32 p.transaction_id ++ encU8 p.output_index ++ encU64 p.value)
  | .AccountInput a v => 1 :: (encB32 a.bytes ++ encU64 v)

/-- Canonical encoding of one output: the address bytes then the value. -/
def Output.as_bytes (o : Output) : List Nat :=
  o.address.as_bytes ++ encU64 o.value

/-- Modelled from the spec (§4.3, §4.6): canonical transaction encoding —
counted inputs, counted outputs, and the optional certificate payload. -/
def Transaction.as_bytes (tx : Transaction) : List Nat :=
  encListC Input.as_bytes tx.inputs ++ encListC Output.as_bytes tx.outputs
    ++ encOpt Certificate.as_bytes tx.payload

/-- `Fragment` (src/src/lib.rs:1926): a ledger message wrapping one signed
transaction variant or a legacy UTXO declaration (spec §3). -/
inductive Fragment
  | Transaction (tx : Transaction)
  | OwnerStakeDelegation (tx : Transaction)
  | StakeDelegation (tx : Transaction)
  | PoolRegistration (tx : Transaction)
  | PoolRetirement (tx : Transaction)
  | PoolUpdate (tx : Transaction)
  | OldUtxoDeclaration (addrs : List (Address × Value))

/-- Modelled from the spec (§4.6): the fragment payload tag byte. -/
def Fragment.tag : Fragment → Nat
  | .OldUtxoDeclaration _ => 1
  | .Transaction _ => 2
  | .OwnerStakeDelegation _ => 3
  | .StakeDelegation _ => 4
  | .PoolRegistration _ => 5
  | .PoolRetirement _ => 6
  | .PoolUpdate _ => 7

/-- Modelled from the spec (§4.6): `Fragment::as_bytes`
(src/src/lib.rs:1973) — one tag byte selecting the payload kind, followed
by the canonical encoding of that payload. -/
def Fragment.as_bytes (f : Fragment) : List Nat :=
  f.tag ::
    match f with
    | .Transaction tx => tx.as_bytes
    | .OwnerStakeDelegation tx => tx.as_bytes
    | .StakeDelegation tx => tx.as_bytes
    | .PoolRegistration tx => tx.as_bytes
    | .PoolRetirement tx => tx.as_bytes
    | .PoolUpdate tx => tx.as_bytes
    | .OldUtxoDeclaration addrs =>
      encListC (fun av => av.1.as_bytes ++ encU64 av.2) addrs

/-- Modelled from the spec (§4.6): `Fragment::id` (src/src/lib.rs:2057,
delegating to the external `chain` crate) — the content-addressed
identifier, `FragmentId = Hash(encoded fragment bytes)`. -/
def Fragment.id (f : Fragment) : Bytes32 := hashBytes f.as_bytes

/-! ## Theorems -/

theorem encBE_length (k n : Nat) : (encBE k n).length = k := by
  induction k generalizing n with
  | zero => rfl
  | succ k ih => simp [encBE, ih]

theorem decBEAux_encBE_append (k : Nat) :
    ∀ (j n acc : Nat) (rest : List Nat), n < 256 ^ k →
      decBEAux (k + j) acc (encBE k n ++ rest)
        = decBEAux j (acc * 256 ^ k + n) rest := by
  induction k with
  | zero =>
      intro j n acc rest hn
      interval_cases n
      simp [encBE, decBEAux]
  | succ k ih =>
      intro j n acc rest hn
      have hdiv : n / 256 < 256 ^ k := by
        have hlt : n < 256 ^ k * 256 := by
          calc n < 256 ^ (k + 1) := hn
          _ = 256 ^ k * 256 := by ring
        omega
      have hstream :
          encBE (k + 1) n ++ rest = encBE k (n / 256) ++ (n % 256 :: rest) := by
        simp [encBE]
      have hsum : k + 1 + j = k + (j + 1) := by omega
      rw [hstream, hsum, ih (j + 1) (n / 256) acc (n % 256 :: rest) hdiv]
      have hstep :
          decBEAux (j + 1) (acc * 256 ^ k + n / 256) (n % 256 :: rest)
            = decBEAux j ((acc * 256 ^ k + n / 256) * 256 + n % 256) rest := by
        rfl
      rw [hstep]
      have hval : (acc * 256 ^ k + n / 256) * 256 + n % 256
          = acc * 256 ^ (k + 1) + n := by
        have hmod := Nat.div_add_mod n 256
        ring_nf
        omega
      rw [hval]

theorem decBE_encBE (k n : Nat) (rest : List Nat) (hn : n < 256 ^ k) :
    decBE k (encBE k n ++ rest) = some (n, rest) := by
  have h := decBEAux_encBE_append k 0 n 0 rest hn
  simpa [decBE, decBEAux] using h

theorem decBound_encBE (k bound : Nat) (x : Fin bound) (rest : List Nat)
    (hb : bound ≤ 256 ^ k) :
    decBound k bound (encBE k x.val ++ rest) = some (x, rest) := by
  have hx : x.val < 256 ^ k := lt_of_lt_of_le x.isLt hb
  simp [decBound, decBE_encBE k x.val rest hx, x.isLt]

theorem decBound_encBE_nil (k bound : Nat) (x : Fin bound)
    (hb : bound ≤ 256 ^ k) :
    decBound k bound (encBE k x.val) = some (x, []) := by
  have h := decBound_encBE k bound x [] hb
  simpa using h

theorem decB32_encB32 (x : Bytes32) (rest : List Nat) :
    decB32 (encB32 x ++ rest) = some (x, rest) :=
  decBound_encBE 32 (2 ^ 256) x rest (by norm_num)

theorem decB32_encB32_nil (x : Bytes32) : decB32 (encB32 x) = some (x, []) :=
  decBound_encBE_nil 32 (2 ^ 256) x (by norm_num)

theorem decU64_encU64 (x : Fin (2 ^ 64)) (rest : List Nat) :
    decU64 (encU64 x ++ rest) = some (x, rest) :=
  decBound_encBE 8 (2 ^ 64) x rest (by norm_num)

theorem decU64_encU64_nil (x : Fin (2 ^ 64)) :
    decU64 (encU64 x) = some (x, []) :=
  decBound_encBE_nil 8 (2 ^ 64) x (by norm_num)

theorem decU128_encU128 (x : Fin (2 ^ 128)) (rest : List Nat) :
    decU128 (encU128 x ++ rest) = some (x, rest) :=
  decBound_encBE 16 (2 ^ 128) x rest (by norm_num)

theorem decU8_encU8 (x : Fin 256) (rest : List Nat) :
    decU8 (encU8 x ++ rest) = some (x, rest) :=
  decBound_encBE 1 256 x rest (by norm_num)

theorem decOpt_encOpt {a : Type} (dec : List Nat → Option (a × List Nat))
    (enc : a → List Nat)
    (hdec : ∀ (x : a) (r : List Nat), dec (enc x ++ r) = some (x, r))
    (o : Option a) (rest : List Nat) :
    decOpt dec (encOpt enc o ++ rest) = some (o, rest) := by
  cases o with
  | none => simp [decOpt, encOpt]
  | some x => simp [decOpt, encOpt, hdec x rest]

theorem decCount_flatMap {a : Type} (dec : List Nat → Option (a × List Nat))
    (enc : a → List Nat)
    (hdec : ∀ (x : a) (r : List Nat), dec (enc x ++ r) = some (x, r)) :
    ∀ (xs : List a) (rest : List Nat),
      decCount dec xs.length (xs.flatMap enc ++ rest) = some (xs, rest) := by
  intro xs
  induction xs with
  | nil => intro rest; simp [decCount]
  | cons x xs ih =>
      intro rest
      have hstream : (x :: xs).flatMap enc ++ rest
          = enc x ++ (xs.flatMap enc ++ rest) := by
        simp [List.flatMap_cons]
      rw [List.length_cons, hstream]
      simp [decCount, hdec x (xs.flatMap enc ++ rest), ih rest]

theorem decListC_encListC {a : Type} (dec : List Nat → Option (a × List Nat))
    (enc : a → List Nat)
    (hdec : ∀ (x : a) (r : List Nat), dec (enc x ++ r) = some (x, r))
    (xs : List a) (rest : List Nat) (hlen : xs.length < 256) :
    decListC dec (encListC enc xs ++ rest) = some (xs, rest) := by
  have hmod : xs.length % 256 = xs.length := Nat.mod_eq_of_lt hlen
  simp only [encListC, hmod, List.cons_append]
  simp [decListC, decCount_flatMap dec enc hdec xs rest]

theorem decPoolPart_enc (e : PoolId × Fin 256) (rest : List Nat) :
    decPoolPart ((encB32 e.1 ++ encU8 e.2) ++ rest) = some (e, rest) := by
  obtain ⟨p, x⟩ := e
  simp [decPoolPart, List.append_assoc, decB32_encB32, decU8_encU8]

theorem delegationType_round (d : DelegationType) (rest : List Nat)
    (hwf : d.wfB = true) :
    DelegationType.from_bytes (d.as_bytes ++ rest) = some (d, rest) := by
  cases d with
  | NonDelegated =>
      simp [DelegationType.as_bytes, DelegationType.from_bytes]
  | Full p =>
      simp [DelegationType.as_bytes, DelegationType.from_bytes, decB32_encB32]
  | Ratio r =>
      obtain ⟨parts, pools⟩ := r
      simp only [DelegationType.wfB, decide_eq_true_eq] at hwf
      simp [DelegationType.as_bytes, DelegationType.from_bytes,
        List.append_assoc, decU8_encU8,
        decListC_encListC decPoolPart (fun e => encB32 e.1 ++ encU8 e.2)
          decPoolPart_enc pools rest hwf]

theorem stakeDelegation_round (c : StakeDelegation)
    (hwf : c.delegation.wfB = true) :
    StakeDelegation.from_bytes c.as_bytes = some c := by
  obtain ⟨acc, d⟩ := c
  have hd : DelegationType.from_bytes (d.as_bytes ++ []) = some (d, []) :=
    delegationType_round d [] hwf
  rw [List.append_nil] at hd
  simp [StakeDelegation.as_bytes, StakeDelegation.from_bytes,
    decB32_encB32, hd]

theorem ownerStakeDelegation_round (c : OwnerStakeDelegation)
    (hwf : c.delegation.wfB = true) :
    OwnerStakeDelegation.from_bytes c.as_bytes = some c := by
  obtain ⟨d⟩ := c
  have hd : DelegationType.from_bytes (d.as_bytes ++ []) = some (d, []) :=
    delegationType_round d [] hwf
  rw [List.append_nil] at hd
  simp [OwnerStakeDelegation.as_bytes, OwnerStakeDelegation.from_bytes, hd]

theorem poolRetirement_round (c : PoolRetirement) :
    PoolRetirement.from_bytes c.as_bytes = some c := by
  obtain ⟨p, t⟩ := c
  simp [PoolRetirement.as_bytes, PoolRetirement.from_bytes,
    decB32_encB32, decU64_encU64_nil]

theorem genesisPraosLeader_round (k : GenesisPraosLeader) (rest : List Nat) :
    GenesisPraosLeader.from_bytes (k.as_bytes ++ rest) = some (k, rest) := by
  obtain ⟨kes, vrf⟩ := k
  simp [GenesisPraosLeader.as_bytes, GenesisPraosLeader.from_bytes,
    List.append_assoc, decB32_encB32]

theorem poolUpdate_round (c : PoolUpdate) :
    PoolUpdate.from_bytes c.as_bytes = some c := by
  obtain ⟨p, sv, pk, keys⟩ := c
  have hk : GenesisPraosLeader.from_bytes (keys.as_bytes ++ []) = some (keys, []) :=
    genesisPraosLeader_round keys []
  rw [List.append_nil] at hk
  simp [PoolUpdate.as_bytes, PoolUpdate.from_bytes, List.append_assoc,
    decB32_encB32, decU64_encU64, hk]

theorem taxType_round (t : TaxType) (rest : List Nat) :
    TaxType.from_bytes (t.as_bytes ++ rest) = some (t, rest) := by
  obtain ⟨fx, num, den, ml⟩ := t
  simp [TaxType.as_bytes, TaxType.from_bytes, List.append_assoc,
    decU64_encU64, decOpt_encOpt decU64 encU64 decU64_encU64 ml rest]

theorem poolRegistration_round (c : PoolRegistration) (hwf : c.wfB = true) :
    PoolRegistration.from_bytes c.as_bytes = some c := by
  obtain ⟨serial, owners, operators, perm, sv, tax, ra, keys⟩ := c
  simp only [PoolRegistration.wfB, Bool.and_eq_true, decide_eq_true_eq] at hwf
  have hk : GenesisPraosLeader.from_bytes (keys.as_bytes ++ []) = some (keys, []) :=
    genesisPraosLeader_round keys []
  rw [List.append_nil] at hk
  simp [PoolRegistration.as_bytes, PoolRegistration.from_bytes,
    List.append_assoc, decU128_encU128,
    decListC_encListC decB32 encB32 decB32_encB32 owners _ hwf.1,
    decListC_encListC decB32 encB32 decB32_encB32 operators _ hwf.2,
    decU8_encU8, decU64_encU64, taxType_round,
    decOpt_encOpt decB32 encB32 decB32_encB32 ra _, hk]

/-! ## Claim theorems -/

/-- C1: For every Bip32 public key `pk` and index `i >= 0x80000000`,
`Bip32PublicKey::derive` fails; for every `i < 0x80000000` it succeeds; and
`Bip32PrivateKey::derive` never fails for any key and any index. -/
theorem c1_bip32_derivation (pk : Bip32PublicKey) (sk : Bip32PrivateKey)
    (i : Fin (2 ^ 32)) :
    (resultOk (Bip32PublicKey.derive pk i) = true ↔ i.val < 0x80000000) ∧
    (∃ k, Bip32PrivateKey.derive sk i = k) := by
  constructor
  · simp only [Bip32PublicKey.derive, derive_pk_ed25519]
    by_cases h : i.val < 0x80000000
    · rw [if_pos h]
      simpa [resultOk] using h
    · rw [if_neg h]
      simpa [resultOk] using h
  · exact ⟨_, rfl⟩

/-- C2: `Fee::linear_fee(constant, coefficient, certificate).calculate(tx)`
equals `constant + coefficient * (nb_inputs + nb_outputs) + certificate *
(1 if a certificate payload is present else 0)` — a function of the counts
and certificate presence only, never of the amounts — and the concrete
scenario (constant 200000, coefficient 50000, certificate 100000; 2 inputs,
1 output, no certificate) yields 350000. -/
theorem c2_linear_fee_calculate (constant coefficient certificate : Value)
    (tx : Transaction) :
    (Fee.linear_fee constant coefficient certificate).calculate tx
        = constant.val + coefficient.val * (tx.inputs.length + tx.outputs.length)
          + certificate.val * (if tx.payload.isSome then 1 else 0) ∧
    (Fee.linear_fee (v64 200000) (v64 50000) (v64 100000)).calculate
        ⟨[Input.UtxoInput ⟨b32 0, f8 0, v64 0⟩,
          Input.UtxoInput ⟨b32 1, f8 1, v64 0⟩],
         [⟨⟨Discrimination.Production, Kind.Single (b32 2)⟩, v64 0⟩],
         none⟩ = 350000 := by
  constructor
  · rfl
  · decide

/-- C3: for every valid address `a` and bech32 prefix `p`,
`Address::from_string(a.to_string(p))` succeeds and returns `a`: the bech32
encode/decode pair round-trips for any prefix, since `from_string` decodes
in any-prefix mode. -/
theorem c3_address_string_round_trip (a : Address) (p : String) :
    Address.from_string (Address.to_string a p) = some a := by
  obtain ⟨d, k⟩ := a
  have hb : (2 : Nat) ^ 256 ≤ 256 ^ 32 := by norm_num
  cases k with
  | Single key =>
      have h := decBound_encBE_nil 32 (2 ^ 256) key hb
      cases d <;>
        simp [-Nat.reducePow, Address.from_string, Address.to_string,
          Address.as_bytes, Address.from_bytes, Kind.tag, Kind.payload,
          Discrimination.bit, h]
  | Group key acc =>
      have h1 := decBound_encBE 32 (2 ^ 256) key (encBE 32 acc.val) hb
      have h2 := decBound_encBE_nil 32 (2 ^ 256) acc hb
      cases d <;>
        simp [-Nat.reducePow, Address.from_string, Address.to_string,
          Address.as_bytes, Address.from_bytes, Kind.tag, Kind.payload,
          Discrimination.bit, h1, h2]
  | Account key =>
      have h := decBound_encBE_nil 32 (2 ^ 256) key hb
      cases d <;>
        simp [-Nat.reducePow, Address.from_string, Address.to_string,
          Address.as_bytes, Address.from_bytes, Kind.tag, Kind.payload,
          Discrimination.bit, h]
  | Multisig root =>
      have h := decBound_encBE_nil 32 (2 ^ 256) root hb
      cases d <;>
        simp [-Nat.reducePow, Address.from_string, Address.to_string,
          Address.as_bytes, Address.from_bytes, Kind.tag, Kind.payload,
          Discrimination.bit, h]

/-- C4: if `a.checked_add(b)` succeeds with sum `s` then `s.checked_sub(b)`
succeeds and equals `a`; `checked_add` fails exactly when the u64 sum would
overflow and `checked_sub` fails exactly when the subtrahend exceeds the
minuend (in particular `Value::MAX + 1` and `0 - 1` fail); neither
operation wraps. -/
theorem c4_value_checked_arithmetic (a b : Value) :
    (∀ s, Value.checked_add a b = some s → Value.checked_sub s b = some a) ∧
    ((Value.checked_add a b).isSome ↔ a.val + b.val < 2 ^ 64) ∧
    ((Value.checked_sub a b).isSome ↔ b.val ≤ a.val) ∧
    Value.checked_add Value.max64 (v64 1) = none ∧
    Value.checked_sub (v64 0) (v64 1) = none := by
  refine ⟨?_, ?_, ?_, by decide, by decide⟩
  · intro s hs
    simp only [Value.checked_add] at hs
    split at hs
    · rename_i h
      cases hs
      simp only [Value.checked_sub]
      rw [dif_pos (Nat.le_add_left b.val a.val)]
      simp only [Option.some.injEq]
      exact Fin.ext (Nat.add_sub_cancel a.val b.val)
    · exact absurd hs (by simp)
  · simp only [Value.checked_add]
    split <;> rename_i h <;> simp <;> omega
  · simp only [Value.checked_sub]
    split <;> rename_i h <;> simp <;> omega

/-- Closed witness for C4 at a concrete input. -/
theorem c4_value_checked_arithmetic_witness :
    Value.checked_add (v64 1) (v64 2) = some (v64 3) ∧
    Value.checked_sub (v64 3) (v64 2) = some (v64 1) :=
  ⟨by decide, (c4_value_checked_arithmetic (v64 1) (v64 2)).1 (v64 3) (by decide)⟩

/-- C5: `DelegationRatio::new(parts, pools)` returns a value exactly when
the list has at least 2 entries and the individual parts sum to `parts`;
in particular parts 7 with pools [(A,2),(B,1),(C,4)] succeeds, parts 7 with
[(A,2),(B,1)] fails, and parts 7 with [(A,7)] fails. -/
theorem c5_delegation_ratio_new (parts : Fin 256)
    (pools : List (PoolId × Fin 256)) :
    ((DelegationRatio.new parts pools).isSome ↔
      2 ≤ pools.length ∧ (pools.map (fun p => p.2.val)).sum = parts.val) ∧
    (DelegationRatio.new (f8 7)
      [(b32 0, f8 2), (b32 1, f8 1), (b32 2, f8 4)]).isSome = true ∧
    DelegationRatio.new (f8 7) [(b32 0, f8 2), (b32 1, f8 1)] = none ∧
    DelegationRatio.new (f8 7) [(b32 0, f8 7)] = none := by
  refine ⟨?_, by decide, by decide, by decide⟩
  simp only [DelegationRatio.new]
  split <;> simp_all

/-- C6: for every public key `pk` and discrimination `d`, the address built
by `Address::single_from_public_key(pk, d)` yields a Single view whose
spending key is `pk`, and its Account view is none. -/
theorem c6_single_address_views (pk : PublicKey) (d : AddressDiscrimination) :
    (Address.single_from_public_key pk d).to_single_address
        = some ⟨d.into, pk⟩ ∧
    ((Address.single_from_public_key pk d).to_single_address.map
        SingleAddress.get_spending_key) = some pk ∧
    (Address.single_from_public_key pk d).to_account_address = none :=
  ⟨rfl, rfl, rfl⟩

/-- C7: for every fragment `f`, `Fragment::id` equals the content-addressed
identifier obtained by hashing the fragment's canonical byte encoding,
`FragmentId::calculate(f.as_bytes())`. -/
theorem c7_fragment_id (f : Fragment) :
    f.id = FragmentId.calculate f.as_bytes := rfl

/-- C8: for every certificate value of each of the five variants,
`from_bytes(c.as_bytes())` succeeds and returns a value equal to `c` (the
canonical serialize/deserialize pair round-trips exactly); the counted
lists (ratio pools, owners, operators) are assumed to fit their count
byte. -/
theorem c8_certificate_round_trip (sd : StakeDelegation)
    (osd : OwnerStakeDelegation) (pr : PoolRegistration)
    (prt : PoolRetirement) (pu : PoolUpdate)
    (hsd : sd.delegation.wfB = true) (hosd : osd.delegation.wfB = true)
    (hpr : pr.wfB = true) :
    StakeDelegation.from_bytes sd.as_bytes = some sd ∧
    OwnerStakeDelegation.from_bytes osd.as_bytes = some osd ∧
    PoolRegistration.from_bytes pr.as_bytes = some pr ∧
    PoolRetirement.from_bytes prt.as_bytes = some prt ∧
    PoolUpdate.from_bytes pu.as_bytes = some pu :=
  ⟨stakeDelegation_round sd hsd, ownerStakeDelegation_round osd hosd,
   poolRegistration_round pr hpr, poolRetirement_round prt,
   poolUpdate_round pu⟩

/-- Closed witness for C8 at concrete certificates of all five variants. -/
theorem c8_certificate_round_trip_witness :
    (DelegationType.wfB
        (.Ratio ⟨f8 7, [(b32 10, f8 2), (b32 11, f8 1), (b32 12, f8 4)]⟩)
          = true ∧
      DelegationType.wfB (.Full (b32 13)) = true ∧
      PoolRegistration.wfB
        ⟨⟨77, by norm_num⟩, [b32 1, b32 2], [b32 3], f8 2, v64 1000,
          TaxType.zero, none, ⟨b32 4, b32 5⟩⟩ = true) ∧
    (StakeDelegation.from_bytes
        (StakeDelegation.as_bytes
          ⟨b32 9, .Ratio ⟨f8 7, [(b32 10, f8 2), (b32 11, f8 1), (b32 12, f8 4)]⟩⟩)
        = some ⟨b32 9, .Ratio ⟨f8 7, [(b32 10, f8 2), (b32 11, f8 1), (b32 12, f8 4)]⟩⟩ ∧
      OwnerStakeDelegation.from_bytes
        (OwnerStakeDelegation.as_bytes ⟨.Full (b32 13)⟩) = some ⟨.Full (b32 13)⟩ ∧
      PoolRegistration.from_bytes
        (PoolRegistration.as_bytes
          ⟨⟨77, by norm_num⟩, [b32 1, b32 2], [b32 3], f8 2, v64 1000,
            TaxType.zero, none, ⟨b32 4, b32 5⟩⟩)
        = some ⟨⟨77, by norm_num⟩, [b32 1, b32 2], [b32 3], f8 2, v64 1000,
            TaxType.zero, none, ⟨b32 4, b32 5⟩⟩ ∧
      PoolRetirement.from_bytes
        (PoolRetirement.as_bytes ⟨b32 14, v64 3600⟩) = some ⟨b32 14, v64 3600⟩ ∧
      PoolUpdate.from_bytes
        (PoolUpdate.as_bytes ⟨b32 15, v64 60, b32 16, ⟨b32 17, b32 18⟩⟩)
        = some ⟨b32 15, v64 60, b32 16, ⟨b32 17, b32 18⟩⟩) :=
  ⟨⟨by decide, by decide, by decide⟩,
   c8_certificate_round_trip
     ⟨b32 9, .Ratio ⟨f8 7, [(b32 10, f8 2), (b32 11, f8 1), (b32 12, f8 4)]⟩⟩
     ⟨.Full (b32 13)⟩
     ⟨⟨77, by norm_num⟩, [b32 1, b32 2], [b32 3], f8 2, v64 1000,
       TaxType.zero, none, ⟨b32 4, b32 5⟩⟩
     ⟨b32 14, v64 3600⟩
     ⟨b32 15, v64 60, b32 16, ⟨b32 17, b32 18⟩⟩
     (by decide) (by decide) (by decide)⟩

/-- C9: `Input::get_utxo_pointer` succeeds exactly on the Utxo variant,
`Input::get_account_identifier` succeeds exactly on the Account variant,
and `Input::value` is total on both variants. -/
theorem c9_input_accessors (i : Input) :
    (resultOk i.get_utxo_pointer = true ↔ ∃ p, i = Input.UtxoInput p) ∧
    (resultOk i.get_account_identifier = true
        ↔ ∃ a v, i = Input.AccountInput a v) ∧
    (∃ v, i.value = v) := by
  cases i <;>
    simp [Input.get_utxo_pointer, Input.get_account_identifier, resultOk,
      Input.value]

/-- C10: every pool registration built by `PoolRegistration::new` carries a
zero rewards tax and no reward account, regardless of the arguments. -/
theorem c10_pool_registration_defaults (serial : Fin (2 ^ 128))
    (owners operators : List PublicKey) (management_threshold : Fin 256)
    (start_validity : Fin (2 ^ 64)) (leader_keys : GenesisPraosLeader) :
    (PoolRegistration.new serial owners operators management_threshold
        start_validity leader_keys).rewards = TaxType.zero ∧
    (PoolRegistration.new serial owners operators management_threshold
        start_validity leader_keys).reward_account = none :=
  ⟨rfl, rfl⟩
